import Mathlib

/-!
Verification of the GramSeva complaint-analysis service (`app.py`).

Strings from the Python source are modelled as `List Char`; Firestore
documents, HTTP responses and the generative-model client are modelled at
their interface boundary.  All definitions are executable so that concrete
runs of the embedded code can be evaluated inside proofs.
-/

/-- ASCII upper/lower case pairs, used to model Python's `str.lower()` /
`str.title()` on the ASCII range. -/
def asciiCasePairs : List (Char × Char) :=
  [('A','a'), ('B','b'), ('C','c'), ('D','d'), ('E','e'), ('F','f'), ('G','g'),
   ('H','h'), ('I','i'), ('J','j'), ('K','k'), ('L','l'), ('M','m'), ('N','n'),
   ('O','o'), ('P','p'), ('Q','q'), ('R','r'), ('S','s'), ('T','t'), ('U','u'),
   ('V','v'), ('W','w'), ('X','x'), ('Y','y'), ('Z','z')]

/-- Lower-case a single character (ASCII model of Python's `str.lower`). -/
def lowerChar (c : Char) : Char :=
  ((asciiCasePairs.find? (fun p => p.1 = c)).map Prod.snd).getD c

/-- Upper-case a single character (ASCII model of Python's `str.upper`). -/
def upperChar (c : Char) : Char :=
  ((asciiCasePairs.find? (fun p => p.2 = c)).map Prod.fst).getD c

/-- Python `s.lower()` on our character-list strings. -/
def toLowerL (s : List Char) : List Char := s.map lowerChar

/-- Python `s.strip()`: drop leading and trailing whitespace. -/
def stripChars (s : List Char) : List Char :=
  ((s.dropWhile Char.isWhitespace).reverse.dropWhile Char.isWhitespace).reverse

/-- Helper for Python `s.title()`: the Boolean records whether the previous
character was alphabetic. -/
def titleAux : Bool → List Char → List Char
  | _, [] => []
  | prev, c :: cs =>
    if c.isAlpha then (if prev then lowerChar c else upperChar c) :: titleAux true cs
    else c :: titleAux false cs

/-- Python `s.title()` (ASCII model): capitalize the first letter of each
alphabetic run, lower-case the rest. -/
def titleCase (s : List Char) : List Char := titleAux false s

/-- Codepoint-wise lexicographic `≤` on strings, the order used both by the
document store's range filter and by Python's `sorted` on strings. -/
def lexLe : List Char → List Char → Bool
  | [], _ => true
  | _ :: _, [] => false
  | a :: as, b :: bs =>
    if a.toNat < b.toNat then true
    else if b.toNat < a.toNat then false
    else lexLe as bs

/-- Helper for whitespace tokenization (Python `s.split()` with no
separator): the accumulator holds the current word reversed. -/
def wordsAux (acc : List Char) : List Char → List (List Char)
  | [] => if acc = [] then [] else [acc.reverse]
  | c :: cs =>
    if c.isWhitespace then
      if acc = [] then wordsAux [] cs else acc.reverse :: wordsAux [] cs
    else wordsAux (c :: acc) cs

/-- Python `s.split()` (no separator): split on runs of whitespace,
discarding empty tokens. -/
def wordsOf (s : List Char) : List (List Char) :=
  wordsAux [] s

/-- Insert a token into a lexicographically sorted token list. -/
def insertTok (x : List Char) : List (List Char) → List (List Char)
  | [] => [x]
  | y :: ys => if lexLe x y then x :: y :: ys else y :: insertTok x ys

/-- Sort tokens lexicographically ascending (Python `sorted`). -/
def sortToks : List (List Char) → List (List Char)
  | [] => []
  | x :: xs => insertTok x (sortToks xs)

/-- Rejoin tokens with single spaces (Python `" ".join`). -/
def joinSpace : List (List Char) → List Char
  | [] => []
  | [w] => w
  | w :: ws => w ++ ' ' :: joinSpace ws

/-- Inner loop of the longest-common-subsequence length: `f` is the LCS
function for the tail of the first string.  Written with nested structural
recursion so that it reduces definitionally. -/
def lcsAux (a : Char) (f : List Char → Nat) : List Char → Nat
  | [] => 0
  | b :: bs => if a = b then f bs + 1 else max (lcsAux a f bs) (f (b :: bs))

/-- Length of the longest common subsequence of two character lists (the
"matches" count of a sequence-matcher similarity ratio). -/
def lcsLen : List Char → List Char → Nat
  | [], _ => 0
  | a :: as, b => lcsAux a (lcsLen as) b

/-- Round `num / den` to the nearest natural number (used for the percentage
ratio).  Two empty strings have identical (empty) token multisets, which the
ratio defines as full similarity, hence `100` when `den = 0`. -/
def roundPct (num den : Nat) : Nat :=
  if den = 0 then 100 else (2 * num + den) / (2 * den)

/-- Modelled from the spec: the library function `fuzz.token_sort_ratio`
(rapidfuzz) used at `app.py:43` is not part of this repository; the spec
describes it as: tokenize both strings on whitespace, sort each token list
lexicographically, rejoin with single spaces, and return
`round(100 * (2 * matches) / (len a + len b))` with
longest-common-subsequence-style matching. -/
def tokenSortScore (a b : List Char) : Nat :=
  let na := joinSpace (sortToks (wordsOf a))
  let nb := joinSpace (sortToks (wordsOf b))
  roundPct (100 * (2 * lcsLen na nb)) (na.length + nb.length)

/-- The similarity computed at `app.py:43`:
`fuzz.token_sort_ratio(problem.lower(), data["text"].lower())`. -/
def simScore (problem text : List Char) : Nat :=
  tokenSortScore (toLowerL problem) (toLowerL text)

example : tokenSortScore "hello world".data "world hello".data = 100 := by decide
example : simScore "Big Pothole".data "pothole big".data = 100 := by decide
example : tokenSortScore "abc".data "xyz".data = 0 := by decide
example : titleCase (stripChars "  springfield  ".data) = "Springfield".data := by decide

deriving instance DecidableEq for Except

/-- A stored complaint document as returned by the document store
(`complaint.to_dict()`).  The `text` field may be absent, which is what
`data["text"]` at `app.py:43` would fail on. -/
structure Doc where
  location : List Char
  text : Option (List Char)
deriving DecidableEq

/-- A matched complaint: the document's data plus the computed
`"similarity"` field (`app.py:45`). -/
structure Matched where
  doc : Doc
  similarity : Nat
deriving DecidableEq

/-- `str(KeyError('text'))` — what the caller sees when a stored record
lacks the `text` field. -/
def keyErrText : List Char := "'text'".data

/-- The sentinel appended to the upper bound of the Firestore range query at
`app.py:37` (`""`). -/
def highSentinel : Char := ''

/-- The Firestore range filter of `app.py:37`:
`where("location", ">=", loc).where("location", "<=", loc + "")`,
with strings compared in codepoint order as the document store does. -/
def firestoreRange (loc : List Char) (d : Doc) : Bool :=
  lexLe loc d.location && lexLe d.location (loc ++ [highSentinel])

/-- The document-store query of `app.py:35`-`38`: all documents of the
stored collection whose `location` passes the range filter, in store
order. -/
def firestoreQuery (store : List Doc) (loc : List Char) : List Doc :=
  store.filter (firestoreRange loc)

/-- The candidate set handed to the similarity-ranking loop by
`search_firebase` (`app.py:34`-`38`), including its own
`location.strip().title()` normalization. -/
def searchCandidates (store : List Doc) (location : List Char) : List Doc :=
  firestoreQuery store (titleCase (stripChars location))

/-- The ranking loop of `app.py:41`-`45`: score each candidate against the
problem, keep those at or above the threshold, in candidate order.  A
candidate without a `text` field raises `KeyError('text')`. -/
def rankLoop (problem : List Char) (threshold : Nat) :
    List Doc → Except (List Char) (List Matched)
  | [] => .ok []
  | d :: ds =>
    match d.text with
    | none => .error keyErrText
    | some txt =>
      let s := simScore problem txt
      match rankLoop problem threshold ds with
      | .error e => .error e
      | .ok rest => .ok (if threshold ≤ s then ⟨d, s⟩ :: rest else rest)

/-- Insert into a list sorted by `similarity` descending, before the first
element of smaller-or-equal key: combined with `sortDesc`'s right fold this
realizes Python's stable `list.sort(key=..., reverse=True)`. -/
def insertDesc (x : Matched) : List Matched → List Matched
  | [] => [x]
  | y :: ys => if y.similarity ≤ x.similarity then x :: y :: ys else y :: insertDesc x ys

/-- Python's stable descending sort by `similarity` (`app.py:47`). -/
def sortDesc : List Matched → List Matched
  | [] => []
  | x :: xs => insertDesc x (sortDesc xs)

/-- The Similarity Ranker: threshold filter followed by the stable
descending sort (`app.py:40`-`48`). -/
def rankComplaints (problem : List Char) (docs : List Doc) (threshold : Nat) :
    Except (List Char) (List Matched) :=
  (rankLoop problem threshold docs).map sortDesc

/-- `search_firebase(location, problem, threshold=70)` (`app.py:32`-`48`)
parametrized by the stored collection. -/
def search_firebase (store : List Doc) (location problem : List Char)
    (threshold : Nat := 70) : Except (List Char) (List Matched) :=
  rankComplaints problem (searchCandidates store location) threshold

example :
    search_firebase [⟨"Springfield".data, some "large pothole on Main St".data⟩]
      "Springfield".data "pothole".data =
      .ok [] := by decide

example :
    search_firebase [⟨"Springfield".data, some "large pothole on Main St".data⟩]
      " springfield ".data "pothole on main st large".data =
      .ok [⟨⟨"Springfield".data, some "large pothole on Main St".data⟩, 100⟩] := by decide

/-- One organic result of the upstream search response; every field is
optional (`r.get(...)` at `app.py:62`). -/
structure OrgItem where
  title : Option (List Char)
  link : Option (List Char)
  snippet : Option (List Char)
deriving DecidableEq

/-- A projected news item, the fixed three-field shape built at
`app.py:62`. -/
structure NewsItem where
  title : List Char
  link : List Char
  snippet : List Char
deriving DecidableEq

/-- The POST payload sent to the search service at `app.py:55`:
`{"q": query, "num": 5}`. -/
structure SerperPayload where
  q : List Char
  num : Nat
deriving DecidableEq

/-- The upstream search-service response at its interface boundary:
a status code plus the parsed `organic` list of the JSON body
(`response.json().get("organic", [])`); `none` models a body on which
that extraction raises. -/
structure HttpResponse where
  status : Nat
  organic : Option (List OrgItem)
deriving DecidableEq

/-- The JSON values that can appear in a request body. -/
inductive Json where
  | str (s : List Char)
  | num (n : Int)
  | null
  | arr (elems : List Json)
  | obj (fields : List (List Char × Json))

/-- The external collaborators of one request: the stored complaints
collection, the search service (a function of the posted payload) and the
generative model (a function of the prompt; `.error` is a raised exception,
`.ok none` a falsy response object). -/
structure World where
  store : List Doc
  news : SerperPayload → HttpResponse
  gemini : List Char → Except (List Char) (Option (List Char))

/-- Placeholder message modelling `str(e)` of the exception raised by
`response.json()` on an unparsable success body. -/
def jsonDecodeMsg : List Char := "Expecting value: line 1 column 1 (char 0)".data

/-- `search_online(location, problem)` (`app.py:51`-`66`): post the query,
soft-fail to `[]` on a non-200 status, otherwise project each organic
result onto `{title, link, snippet}` with the three placeholders. -/
def search_online (w : World) (location problem : List Char) :
    Except (List Char) (List NewsItem) :=
  let query := problem ++ " in ".data ++ location
  let resp := w.news ⟨query, 5⟩
  if resp.status = 200 then
    match resp.organic with
    | none => .error jsonDecodeMsg
    | some rs => .ok (rs.map fun r =>
        ⟨r.title.getD "No Title".data, r.link.getD "#".data,
         r.snippet.getD "No snippet available.".data⟩)
  else .ok []

/-- One line of the markdown news list built at `app.py:71`-`73`. -/
def renderNews (n : NewsItem) : List Char :=
  "- **".data ++ n.title ++ "**: ".data ++ n.snippet ++
    " ([Source](".data ++ n.link ++ "))".data

/-- `"\n".join(...)`. -/
def joinNewline : List (List Char) → List Char
  | [] => []
  | [w] => w
  | w :: ws => w ++ '\n' :: joinNewline ws

/-- Textual dump of the matched complaints interpolated into the prompt
f-string (`app.py:79`); Python's `repr` of the list of dicts is abstracted
to a rendering of the same fields. -/
def reprMatched : List Matched → List Char
  | [] => []
  | m :: ms =>
    m.doc.location ++ ": ".data ++ (m.doc.text.getD []) ++
      " (similarity ".data ++ Nat.toDigits 10 m.similarity ++ ") ".data ++
      reprMatched ms

/-- The instruction prompt of `app.py:75`-`87`. -/
def buildPrompt (location problem : List Char) (complaints : List Matched)
    (news : List NewsItem) : List Char :=
  let newsText := joinNewline (news.map renderNews)
  "\n    You are an expert in analyzing social issues. A complaint about \"".data ++
    problem ++ "\" was received in ".data ++ location ++
    ".\n    Below is relevant information:\n\n    - **Database complaints**: ".data ++
    (if complaints = [] then "None found".data else reprMatched complaints) ++
    "\n    - **Relevant News Articles**:\n      ".data ++
    (if newsText = [] then "No relevant news found".data else newsText) ++
    "\n\n    Please provide:\n    1. Possible reasons for this issue.\n    2. Suggested solutions.\n    3. Additional recommendations.\n    ".data

/-- `generate_summary(...)` (`app.py:69`-`94`): submit the prompt; a falsy
response becomes the fixed fallback text and a raised exception is caught
and embedded into an error string. -/
def generate_summary (w : World) (location problem : List Char)
    (complaints : List Matched) (news : List NewsItem) : List Char :=
  let prompt := buildPrompt location problem complaints news
  match w.gemini prompt with
  | .ok (some t) => t
  | .ok none => "No summary available.".data
  | .error e => "Error generating summary: ".data ++ e

/-- The external calls `analyze` can issue, in program order. -/
inductive ExtCall where
  | firestoreCall
  | serperCall
  | geminiCall
deriving DecidableEq

/-- The body of an HTTP response of the service. -/
inductive RespBody where
  | err (msg : List Char)
  | result (location problem : List Char) (complaints : List Matched)
      (news : List NewsItem) (summary : List Char)
deriving DecidableEq

/-- Status code, response body, and the external calls issued, of one
handled request. -/
structure AnalyzeResult where
  status : Nat
  body : RespBody
  calls : List ExtCall
deriving DecidableEq

/-- First binding of a key in a JSON object (Python dict lookup). -/
def lookupField (fields : List (List Char × Json)) (k : List Char) : Option Json :=
  match fields with
  | [] => none
  | (k', v) :: rest => if k' = k then some v else lookupField rest k

/-- `data.get(k, "")` followed by use as a string: an absent key yields the
default `""`; a present value yields its characters when it is a string and
`none` when it is any other JSON value (on which `.strip()` raises
`AttributeError`). -/
def rawStrField (fields : List (List Char × Json)) (k : List Char) :
    Option (List Char) :=
  match lookupField fields k with
  | none => some []
  | some (.str s) => some s
  | some _ => none

/-- `str(e)` of the `AttributeError` raised by `.get` on a non-dict body
(`request.get_json()` not returning an object). -/
def attrGetMsg : List Char := "object has no attribute 'get'".data

/-- `str(e)` of the `AttributeError` raised by `.strip()` on a non-string
field value. -/
def attrStripMsg : List Char := "object has no attribute 'strip'".data

/-- The 400 validation message of `app.py:106`. -/
def requiredMsg : List Char :=
  "Both 'location' and 'problem' fields are required!".data

def locKey : List Char := "location".data
def probKey : List Char := "problem".data

/-- The `/analyze` handler (`app.py:97`-`121`): read and normalize the two
fields, validate, then call the document store, the search service and the
summary generator in order; any raised exception is caught and returned as
a 500 with the exception's string representation. -/
def analyze (w : World) (reqJson : Json) : AnalyzeResult :=
  match reqJson with
  | .obj fields =>
    match rawStrField fields locKey with
    | none => ⟨500, .err attrStripMsg, []⟩
    | some rawLoc =>
      match rawStrField fields probKey with
      | none => ⟨500, .err attrStripMsg, []⟩
      | some rawProb =>
        let location := titleCase (stripChars rawLoc)
        let problem := stripChars rawProb
        if location = [] ∨ problem = [] then
          ⟨400, .err requiredMsg, []⟩
        else
          match search_firebase w.store location problem 70 with
          | .error e => ⟨500, .err e, [.firestoreCall]⟩
          | .ok complaints =>
            match search_online w location problem with
            | .error e => ⟨500, .err e, [.firestoreCall, .serperCall]⟩
            | .ok news =>
              ⟨200,
               .result location problem complaints news
                 (generate_summary w location problem complaints news),
               [.firestoreCall, .serperCall, .geminiCall]⟩
  | _ => ⟨500, .err attrGetMsg, []⟩

/-- Extract the summary field of a success body. -/
def summaryOf : RespBody → Option (List Char)
  | .result _ _ _ _ s => some s
  | .err _ => none

/-- A world with no stored complaints, a failing search upstream and a
failing generative model, used for concrete evaluations. -/
def emptyWorld : World :=
  ⟨[], fun _ => ⟨503, none⟩, fun _ => .error "boom".data⟩

example :
    analyze emptyWorld (.obj [(locKey, .str " delhi ".data), (probKey, .str "potholes".data)]) =
      ⟨200, .result "Delhi".data "potholes".data [] []
        ("Error generating summary: boom".data), [.firestoreCall, .serperCall, .geminiCall]⟩ := by
  rfl

example :
    analyze emptyWorld (.obj [(probKey, .str "potholes".data)]) =
      ⟨400, .err requiredMsg, []⟩ := by rfl

example : analyze emptyWorld (.num 3) = ⟨500, .err attrGetMsg, []⟩ := by rfl

example :
    analyze emptyWorld (.obj [(locKey, .num 5), (probKey, .str "x".data)]) =
      ⟨500, .err attrStripMsg, []⟩ := by rfl

/-! ### Bounds on the similarity score -/

theorem lcsLen_le (a : List Char) : ∀ b : List Char,
    lcsLen a b ≤ a.length ∧ lcsLen a b ≤ b.length := by
  induction a with
  | nil => intro b; simp [lcsLen]
  | cons x as ih =>
    intro b
    induction b with
    | nil => simp [lcsLen, lcsAux]
    | cons y bs ihb =>
      show lcsAux x (lcsLen as) (y :: bs) ≤ _ ∧ lcsAux x (lcsLen as) (y :: bs) ≤ _
      rw [lcsAux]
      by_cases h : x = y
      · rw [if_pos h]
        have h1 := ih bs
        simp only [List.length_cons]
        omega
      · rw [if_neg h]
        have h1 := ih (y :: bs)
        have h2 : lcsAux x (lcsLen as) bs ≤ (x :: as).length ∧
            lcsAux x (lcsLen as) bs ≤ bs.length := ihb
        simp only [List.length_cons] at *
        constructor
        · exact Nat.max_le.mpr ⟨by omega, by omega⟩
        · exact Nat.max_le.mpr ⟨by omega, by omega⟩

theorem roundPct_le_100 (num den : Nat) (h : num ≤ 100 * den) :
    roundPct num den ≤ 100 := by
  unfold roundPct
  by_cases hd : den = 0
  · simp [hd]
  · rw [if_neg hd]
    have : 2 * num + den < 2 * den * 101 := by omega
    have := Nat.div_lt_of_lt_mul this
    omega

theorem tokenSortScore_le_100 (a b : List Char) : tokenSortScore a b ≤ 100 := by
  unfold tokenSortScore
  apply roundPct_le_100
  have h := lcsLen_le (joinSpace (sortToks (wordsOf a))) (joinSpace (sortToks (wordsOf b)))
  omega

theorem simScore_le_100 (problem text : List Char) : simScore problem text ≤ 100 :=
  tokenSortScore_le_100 _ _

/-! ### The ranking loop -/

theorem rankLoop_mem (problem : List Char) (t : Nat) :
    ∀ (ds : List Doc) (out : List Matched), rankLoop problem t ds = .ok out →
      ∀ m ∈ out, t ≤ m.similarity ∧ m.similarity ≤ 100 := by
  intro ds
  induction ds with
  | nil =>
    intro out h m hm
    simp only [rankLoop] at h
    cases h
    simp at hm
  | cons d rest ih =>
    intro out h m hm
    simp only [rankLoop] at h
    cases htext : d.text with
    | none => rw [htext] at h; exact absurd h (by simp)
    | some txt =>
      rw [htext] at h
      cases hrec : rankLoop problem t rest with
      | error e => rw [hrec] at h; exact absurd h (by simp)
      | ok restOut =>
        rw [hrec] at h
        simp only [Except.ok.injEq] at h
        by_cases hth : t ≤ simScore problem txt
        · rw [if_pos hth] at h
          subst h
          rcases List.mem_cons.mp hm with hm2 | hm2
          · subst hm2; exact ⟨hth, simScore_le_100 _ _⟩
          · exact ih restOut hrec m hm2
        · rw [if_neg hth] at h
          subst h
          exact ih restOut hrec m hm

theorem rankLoop_error_of_missing (problem : List Char) (t : Nat) :
    ∀ (ds : List Doc) (d : Doc), d ∈ ds → d.text = none →
      rankLoop problem t ds = .error keyErrText := by
  intro ds
  induction ds with
  | nil => intro d hd; simp at hd
  | cons d0 rest ih =>
    intro d hd hnone
    simp only [rankLoop]
    rcases List.mem_cons.mp hd with h | h
    · subst h; rw [hnone]
    · cases htext : d0.text with
      | none => rfl
      | some txt => rw [ih d h hnone]

/-! ### The stable descending sort -/

/-- Descending order on the `similarity` key. -/
def descKey (a b : Matched) : Prop := b.similarity ≤ a.similarity

theorem insertDesc_perm (x : Matched) (l : List Matched) :
    (insertDesc x l).Perm (x :: l) := by
  induction l with
  | nil => exact List.Perm.refl _
  | cons y ys ih =>
    rw [insertDesc]
    by_cases h : y.similarity ≤ x.similarity
    · rw [if_pos h]
    · rw [if_neg h]
      exact (List.Perm.cons y ih).trans (List.Perm.swap x y ys)

theorem sortDesc_perm (l : List Matched) : (sortDesc l).Perm l := by
  induction l with
  | nil => exact List.Perm.refl _
  | cons x xs ih =>
    rw [sortDesc]
    exact (insertDesc_perm x (sortDesc xs)).trans (List.Perm.cons x ih)

theorem insertDesc_sorted (x : Matched) (l : List Matched)
    (hl : l.Pairwise descKey) : (insertDesc x l).Pairwise descKey := by
  induction l with
  | nil => simp [insertDesc, List.pairwise_singleton]
  | cons y ys ih =>
    rw [insertDesc]
    rcases List.pairwise_cons.mp hl with ⟨hy, hys⟩
    by_cases h : y.similarity ≤ x.similarity
    · rw [if_pos h]
      refine List.pairwise_cons.mpr ⟨?_, hl⟩
      intro z hz
      rcases List.mem_cons.mp hz with hz2 | hz2
      · subst hz2; exact h
      · exact Nat.le_trans (hy z hz2) h
    · rw [if_neg h]
      refine List.pairwise_cons.mpr ⟨?_, ih hys⟩
      intro z hz
      rcases List.mem_cons.mp ((insertDesc_perm x ys).mem_iff.mp hz) with hz2 | hz2
      · subst hz2; exact Nat.le_of_lt (Nat.lt_of_not_le h)
      · exact hy z hz2

theorem sortDesc_sorted (l : List Matched) : (sortDesc l).Pairwise descKey := by
  induction l with
  | nil => simp [sortDesc]
  | cons x xs ih => exact insertDesc_sorted x (sortDesc xs) ih

theorem insertDesc_filter (x : Matched) (l : List Matched) (s : Nat) :
    (insertDesc x l).filter (fun m => m.similarity == s) =
      if x.similarity = s then x :: l.filter (fun m => m.similarity == s)
      else l.filter (fun m => m.similarity == s) := by
  induction l with
  | nil =>
    by_cases h : x.similarity = s
    · simp [insertDesc, List.filter_cons, h]
    · simp [insertDesc, List.filter_cons, h]
  | cons y ys ih =>
    rw [insertDesc]
    by_cases h : y.similarity ≤ x.similarity
    · rw [if_pos h]
      simp only [List.filter_cons]
      by_cases hx : x.similarity = s
      · simp [hx]
      · simp [hx]
    · rw [if_neg h]
      have hxy : x.similarity < y.similarity := Nat.lt_of_not_le h
      by_cases hx : x.similarity = s
      · have hy : y.similarity ≠ s := by omega
        rw [if_pos hx]
        simp only [List.filter_cons]
        simp only [show (y.similarity == s) = false by simp [hy], if_false]
        rw [ih, if_pos hx]
        simp
      · rw [if_neg hx]
        simp only [List.filter_cons]
        rw [ih, if_neg hx]

/-! ### The lexicographic string order -/

theorem charToNat_inj {a b : Char} (h : a.toNat = b.toNat) : a = b :=
  Char.ext (UInt32.ext h)

theorem lexLe_total (x : List Char) : ∀ y : List Char,
    lexLe x y = true ∨ lexLe y x = true := by
  induction x with
  | nil => intro y; left; rfl
  | cons a as ih =>
    intro y
    cases y with
    | nil => right; rfl
    | cons b bs =>
      rw [lexLe, lexLe]
      rcases Nat.lt_trichotomy a.toNat b.toNat with h | h | h
      · left; rw [if_pos h]
      · rw [if_neg (by omega), if_neg (by omega), if_neg (by omega), if_neg (by omega)]
        exact ih bs
      · right; rw [if_pos h]

theorem lexLe_antisymm (x : List Char) : ∀ y : List Char,
    lexLe x y = true → lexLe y x = true → x = y := by
  induction x with
  | nil =>
    intro y h1 h2
    cases y with
    | nil => rfl
    | cons b bs => exact absurd h2 (by rw [lexLe]; simp)
  | cons a as ih =>
    intro y h1 h2
    cases y with
    | nil => exact absurd h1 (by rw [lexLe]; simp)
    | cons b bs =>
      rw [lexLe] at h1 h2
      rcases Nat.lt_trichotomy a.toNat b.toNat with h | h | h
      · rw [if_neg (by omega), if_pos h] at h2; exact absurd h2 (by simp)
      · rw [if_neg (by omega), if_neg (by omega)] at h1
        rw [if_neg (by omega), if_neg (by omega)] at h2
        rw [charToNat_inj h, ih bs h1 h2]
      · rw [if_neg (by omega), if_pos h] at h1; exact absurd h1 (by simp)

theorem lexLe_trans (x : List Char) : ∀ y z : List Char,
    lexLe x y = true → lexLe y z = true → lexLe x z = true := by
  induction x with
  | nil => intro y z h1 h2; rfl
  | cons a as ih =>
    intro y z h1 h2
    cases y with
    | nil => exact absurd h1 (by rw [lexLe]; simp)
    | cons b bs =>
      cases z with
      | nil => exact absurd h2 (by rw [lexLe]; simp)
      | cons c cs =>
        rw [lexLe] at h1 h2 ⊢
        by_cases hab : a.toNat < b.toNat
        · by_cases hbc : b.toNat < c.toNat
          · rw [if_pos (by omega)]
          · rw [if_neg hbc] at h2
            by_cases hcb : c.toNat < b.toNat
            · rw [if_pos hcb] at h2; exact absurd h2 (by simp)
            · rw [if_pos (by omega)]
        · rw [if_neg hab] at h1
          by_cases hba : b.toNat < a.toNat
          · rw [if_pos hba] at h1; exact absurd h1 (by simp)
          · rw [if_neg hba] at h1
            by_cases hbc : b.toNat < c.toNat
            · rw [if_pos (by omega)]
            · rw [if_neg hbc] at h2
              by_cases hcb : c.toNat < b.toNat
              · rw [if_pos hcb] at h2; exact absurd h2 (by simp)
              · rw [if_neg hcb] at h2
                rw [if_neg (by omega), if_neg (by omega)]
                exact ih bs cs h1 h2

theorem lexLe_append (p : List Char) : ∀ a b : List Char,
    lexLe (p ++ a) (p ++ b) = lexLe a b := by
  induction p with
  | nil => intro a b; rfl
  | cons c cs ih =>
    intro a b
    show lexLe (c :: (cs ++ a)) (c :: (cs ++ b)) = _
    rw [lexLe, if_neg (Nat.lt_irrefl _), if_neg (Nat.lt_irrefl _), ih]

/-! ### Firestore range lemmas -/

theorem mem_searchCandidates_of_extends (store : List Doc) (location suffix : List Char)
    (d : Doc) (hmem : d ∈ store)
    (hloc : d.location = titleCase (stripChars location) ++ suffix)
    (hsuf : lexLe suffix [highSentinel] = true) :
    d ∈ searchCandidates store location := by
  unfold searchCandidates firestoreQuery
  apply List.mem_filter.mpr
  refine ⟨hmem, ?_⟩
  unfold firestoreRange
  rw [hloc]
  rw [Bool.and_eq_true]
  constructor
  · have h := lexLe_append (titleCase (stripChars location)) [] suffix
    rw [List.append_nil] at h
    rw [h]; rfl
  · rw [lexLe_append]; exact hsuf

/-! ### Sorting the tokens -/

/-- The token order used by `sorted`. -/
def tokLe (a b : List Char) : Prop := lexLe a b = true

theorem insertTok_perm (x : List Char) (l : List (List Char)) :
    (insertTok x l).Perm (x :: l) := by
  induction l with
  | nil => exact List.Perm.refl _
  | cons y ys ih =>
    rw [insertTok]
    by_cases h : lexLe x y = true
    · rw [if_pos h]
    · rw [if_neg h]
      exact (List.Perm.cons y ih).trans (List.Perm.swap x y ys)

theorem sortToks_perm (l : List (List Char)) : (sortToks l).Perm l := by
  induction l with
  | nil => exact List.Perm.refl _
  | cons x xs ih =>
    rw [sortToks]
    exact (insertTok_perm x (sortToks xs)).trans (List.Perm.cons x ih)

theorem insertTok_sorted (x : List Char) (l : List (List Char))
    (hl : l.Pairwise tokLe) : (insertTok x l).Pairwise tokLe := by
  induction l with
  | nil => simp [insertTok, List.pairwise_singleton]
  | cons y ys ih =>
    rw [insertTok]
    rcases List.pairwise_cons.mp hl with ⟨hy, hys⟩
    by_cases h : lexLe x y = true
    · rw [if_pos h]
      refine List.pairwise_cons.mpr ⟨?_, hl⟩
      intro z hz
      rcases List.mem_cons.mp hz with hz2 | hz2
      · subst hz2; exact h
      · exact lexLe_trans x y z h (hy z hz2)
    · rw [if_neg h]
      refine List.pairwise_cons.mpr ⟨?_, ih hys⟩
      intro z hz
      rcases List.mem_cons.mp ((insertTok_perm x ys).mem_iff.mp hz) with hz2 | hz2
      · rcases lexLe_total x y with hxy | hxy
        · exact absurd hxy h
        · rw [hz2]; exact hxy
      · exact hy z hz2

theorem sortToks_sorted (l : List (List Char)) : (sortToks l).Pairwise tokLe := by
  induction l with
  | nil => simp [sortToks]
  | cons x xs ih => exact insertTok_sorted x (sortToks xs) ih

theorem sortToks_eq_of_perm (l1 l2 : List (List Char)) (h : l1.Perm l2) :
    sortToks l1 = sortToks l2 := by
  haveI : IsAntisymm (List Char) tokLe := ⟨fun a b h1 h2 => lexLe_antisymm a b h1 h2⟩
  exact List.eq_of_perm_of_sorted
    ((sortToks_perm l1).trans (h.trans (sortToks_perm l2).symm))
    (sortToks_sorted l1) (sortToks_sorted l2)

/-! ### Lower-casing commutes with whitespace tokenization -/

theorem lowerChar_ws (c : Char) : (lowerChar c).isWhitespace = c.isWhitespace := by
  unfold lowerChar
  cases hf : asciiCasePairs.find? (fun p => p.1 = c) with
  | none => simp
  | some p =>
    have hmem : p ∈ asciiCasePairs := List.mem_of_find?_eq_some hf
    have hc : p.1 = c := by simpa using List.find?_some hf
    have hall : ∀ q ∈ asciiCasePairs,
        (Prod.snd q).isWhitespace = false ∧ (Prod.fst q).isWhitespace = false := by decide
    rcases hall p hmem with ⟨h2, h1⟩
    simp [← hc, h1, h2]

theorem wordsAux_lower (s : List Char) : ∀ acc : List Char,
    wordsAux (acc.map lowerChar) (s.map lowerChar) =
      (wordsAux acc s).map (List.map lowerChar) := by
  induction s with
  | nil =>
    intro acc
    rw [List.map_nil, wordsAux, wordsAux]
    by_cases h : acc = []
    · subst h; simp
    · rw [if_neg (by simpa using h), if_neg h]
      simp
  | cons c cs ih =>
    intro acc
    rw [List.map_cons, wordsAux, wordsAux, lowerChar_ws]
    by_cases hws : c.isWhitespace
    · rw [if_pos hws, if_pos hws]
      by_cases h : acc = []
      · subst h
        rw [List.map_nil, if_pos rfl, if_pos rfl]
        simpa using ih []
      · rw [if_neg (by simpa using h), if_neg h]
        have := ih []
        rw [List.map_nil] at this
        simp [this]
    · rw [if_neg hws, if_neg hws]
      simpa using ih (c :: acc)

theorem wordsOf_lower (s : List Char) :
    wordsOf (toLowerL s) = (wordsOf s).map (List.map lowerChar) := by
  have := wordsAux_lower s []
  rw [List.map_nil] at this
  simpa [wordsOf, toLowerL] using this

/-! ### Title-casing preserves length -/

theorem titleAux_length (l : List Char) : ∀ b : Bool,
    (titleAux b l).length = l.length := by
  induction l with
  | nil => intro b; rfl
  | cons c cs ih =>
    intro b
    rw [titleAux]
    by_cases h : c.isAlpha
    · rw [if_pos h]; simp [ih true]
    · rw [if_neg h]; simp [ih false]

theorem titleCase_eq_nil_iff (l : List Char) : titleCase l = [] ↔ l = [] := by
  constructor
  · intro h
    have hlen := titleAux_length l false
    rw [show titleAux false l = titleCase l from rfl, h] at hlen
    exact List.length_eq_zero.mp hlen.symm
  · intro h; subst h; rfl

theorem sortDesc_filter (l : List Matched) (s : Nat) :
    (sortDesc l).filter (fun m => m.similarity == s) =
      l.filter (fun m => m.similarity == s) := by
  induction l with
  | nil => rfl
  | cons x xs ih =>
    rw [sortDesc, insertDesc_filter]
    by_cases hx : x.similarity = s
    · rw [if_pos hx, ih]
      simp [List.filter_cons, hx]
    · rw [if_neg hx, ih]
      simp [List.filter_cons, hx]

/-! ## Claims -/

/-- A stored record whose `location` strictly extends the queried location
as a prefix. -/
def sfExt : Doc := ⟨"Springfield Heights".data, some "x".data⟩

/-- A stored record whose `location` is exactly the sentinel upper bound of
the range. -/
def sfBound : Doc := ⟨"Springfield".data ++ [highSentinel], some "x".data⟩

/-- C1 is false on the code: for the query location "Springfield", the
range filter of `search_firebase` admits the record with location
"Springfield Heights" (a strict prefix extension, not an exact match) and
even the record at exactly `location + HIGH_SENTINEL` (so the range is
closed, not half-open, at the sentinel end); both are among the candidates
passed to the similarity ranker. -/
theorem c1_counterexample :
    sfExt ∈ searchCandidates [sfExt, sfBound] "Springfield".data ∧
    sfBound ∈ searchCandidates [sfExt, sfBound] "Springfield".data ∧
    sfExt.location ≠ titleCase (stripChars "Springfield".data) := by
  refine ⟨by decide, by decide, by decide⟩

/-- C1 (amended): the query of `search_firebase` is a prefix-range scan
over the closed interval `[L, L + HIGH_SENTINEL]` with `L` the trimmed,
title-cased location: every stored record whose `location` extends `L` by
any suffix not lexicographically above the one-character sentinel string —
in particular every strict prefix extension starting with an ordinary
character, and the sentinel endpoint itself — is among the candidates
passed to the similarity ranker; candidate membership is not exact
equality of `location` with `L`. -/
theorem c1_amended (store : List Doc) (location suffix : List Char) (d : Doc)
    (hmem : d ∈ store)
    (hloc : d.location = titleCase (stripChars location) ++ suffix)
    (hsuf : lexLe suffix [highSentinel] = true) :
    d ∈ searchCandidates store location :=
  mem_searchCandidates_of_extends store location suffix d hmem hloc hsuf

/-- Witness for C1 (amended) at a concrete store and query. -/
theorem c1_amended_witness : sfExt ∈ searchCandidates [sfExt, sfBound] "Springfield".data :=
  c1_amended [sfExt, sfBound] "Springfield".data " Heights".data sfExt
    (by decide) (by decide) (by decide)

/-- C2: every matched complaint produced by the similarity ranking step of
`search_firebase` carries a `similarity` value (a natural number) in the
closed interval `[0, 100]`. -/
theorem c2_bounds (store : List Doc) (location problem : List Char) (t : Nat)
    (out : List Matched)
    (h : search_firebase store location problem t = .ok out) :
    ∀ m ∈ out, 0 ≤ m.similarity ∧ m.similarity ≤ 100 := by
  intro m hm
  unfold search_firebase rankComplaints at h
  cases hrec : rankLoop problem t (searchCandidates store location) with
  | error e => rw [hrec] at h; exact absurd h (by simp [Except.map])
  | ok kept =>
    rw [hrec] at h
    simp only [Except.map, Except.ok.injEq] at h
    subst h
    have hmem : m ∈ kept := (sortDesc_perm kept).mem_iff.mp hm
    exact ⟨Nat.zero_le _, (rankLoop_mem problem t _ kept hrec m hmem).2⟩

/-- Witness for C2 at a concrete store and query. -/
theorem c2_witness :
    search_firebase [⟨"Springfield".data, some "pothole".data⟩] "Springfield".data
        "pothole".data 70 =
      .ok [⟨⟨"Springfield".data, some "pothole".data⟩, 100⟩] ∧
    ∀ m ∈ [(⟨⟨"Springfield".data, some "pothole".data⟩, 100⟩ : Matched)],
      0 ≤ m.similarity ∧ m.similarity ≤ 100 :=
  ⟨by decide,
   c2_bounds [⟨"Springfield".data, some "pothole".data⟩] "Springfield".data
     "pothole".data 70 [⟨⟨"Springfield".data, some "pothole".data⟩, 100⟩] (by decide)⟩

/-- C3: for every problem, candidate list and threshold, the ranked output
of the similarity ranker contains no entry scoring below the threshold, is
sorted by `similarity` descending, and is the stable permutation of the
kept candidates: entries of equal score appear in the candidates' input
order. -/
theorem c3_ranked (problem : List Char) (docs : List Doc) (t : Nat)
    (out kept : List Matched)
    (hout : rankComplaints problem docs t = .ok out)
    (hkept : rankLoop problem t docs = .ok kept) :
    (∀ m ∈ out, t ≤ m.similarity) ∧
    out.Pairwise descKey ∧
    out.Perm kept ∧
    (∀ s : Nat, out.filter (fun m => m.similarity == s) =
      kept.filter (fun m => m.similarity == s)) := by
  unfold rankComplaints at hout
  rw [hkept] at hout
  simp only [Except.map, Except.ok.injEq] at hout
  subst hout
  refine ⟨?_, sortDesc_sorted kept, sortDesc_perm kept, fun s => sortDesc_filter kept s⟩
  intro m hm
  exact (rankLoop_mem problem t docs kept hkept m ((sortDesc_perm kept).mem_iff.mp hm)).1

/-- The candidate list of the C3 witness: two tied full matches (in input
order) and one candidate below the threshold. -/
def c3docs : List Doc :=
  [⟨"L".data, some "b a".data⟩, ⟨"L".data, some "a b".data⟩, ⟨"L".data, some "z".data⟩]

/-- The ranked output of the C3 witness. -/
def c3out : List Matched :=
  [⟨⟨"L".data, some "b a".data⟩, 100⟩, ⟨⟨"L".data, some "a b".data⟩, 100⟩]

/-- Witness for C3 at a concrete problem, candidate list and threshold. -/
theorem c3_witness :
    (∀ m ∈ c3out, 70 ≤ m.similarity) ∧
    c3out.Pairwise descKey ∧
    c3out.Perm c3out ∧
    (∀ s : Nat, c3out.filter (fun m => m.similarity == s) =
      c3out.filter (fun m => m.similarity == s)) :=
  c3_ranked "a b".data c3docs 70 c3out c3out (by decide) (by decide)

/-- C4: for non-empty problem and text strings, the similarity score
computed by the ranker is invariant under any permutation of the
whitespace-separated words within either string. -/
theorem c4_perm_invariant (p p2 t t2 : List Char)
    (hp : p ≠ []) (ht : t ≠ [])
    (hpw : (wordsOf p2).Perm (wordsOf p)) (htw : (wordsOf t2).Perm (wordsOf t)) :
    simScore p2 t2 = simScore p t := by
  unfold simScore tokenSortScore
  have h1 : sortToks (wordsOf (toLowerL p2)) = sortToks (wordsOf (toLowerL p)) := by
    rw [wordsOf_lower, wordsOf_lower]
    exact sortToks_eq_of_perm _ _ (hpw.map (List.map lowerChar))
  have h2 : sortToks (wordsOf (toLowerL t2)) = sortToks (wordsOf (toLowerL t)) := by
    rw [wordsOf_lower, wordsOf_lower]
    exact sortToks_eq_of_perm _ _ (htw.map (List.map lowerChar))
  rw [h1, h2]

/-- Witness for C4 at concrete reordered strings. -/
theorem c4_witness :
    simScore "water Dirty".data "Water dirty everywhere".data =
      simScore "Dirty water".data "dirty Water everywhere".data :=
  c4_perm_invariant "Dirty water".data "water Dirty".data
    "dirty Water everywhere".data "Water dirty everywhere".data
    (by decide) (by decide) (by decide) (by decide)

/-- C5: when any candidate record returned by the document-store query
lacks the `text` field, the lookup step raises (`search_firebase` fails
with `KeyError('text')` rather than skipping the record) and the request
terminates with a client-visible 500 error response carrying the
exception's string representation instead of partial results. -/
theorem c5_missing_text (w : World) (fields : List (List Char × Json))
    (rawLoc rawProb : List Char) (d : Doc)
    (hl : rawStrField fields locKey = some rawLoc)
    (hp : rawStrField fields probKey = some rawProb)
    (hne1 : stripChars rawLoc ≠ []) (hne2 : stripChars rawProb ≠ [])
    (hd : d ∈ searchCandidates w.store (titleCase (stripChars rawLoc)))
    (hdt : d.text = none) :
    search_firebase w.store (titleCase (stripChars rawLoc)) (stripChars rawProb) 70 =
      .error keyErrText ∧
    analyze w (.obj fields) = ⟨500, .err keyErrText, [.firestoreCall]⟩ := by
  have hrank : search_firebase w.store (titleCase (stripChars rawLoc))
      (stripChars rawProb) 70 = .error keyErrText := by
    unfold search_firebase rankComplaints
    rw [rankLoop_error_of_missing (stripChars rawProb) 70 _ d hd hdt]
    rfl
  refine ⟨hrank, ?_⟩
  simp only [analyze, hl, hp]
  have hcond : ¬(titleCase (stripChars rawLoc) = [] ∨ stripChars rawProb = []) := by
    intro h
    rcases h with h | h
    · exact hne1 ((titleCase_eq_nil_iff _).mp h)
    · exact hne2 h
  rw [if_neg hcond, hrank]

/-- Witness for C5 at a concrete world whose only stored record lacks
`text`. -/
theorem c5_witness :
    search_firebase [⟨"Delhi".data, none⟩] (titleCase (stripChars "Delhi".data))
        (stripChars "smog".data) 70 = .error keyErrText ∧
    analyze ⟨[⟨"Delhi".data, none⟩], fun _ => ⟨503, none⟩, fun _ => .error "boom".data⟩
        (.obj [(locKey, .str "Delhi".data), (probKey, .str "smog".data)]) =
      ⟨500, .err keyErrText, [.firestoreCall]⟩ :=
  c5_missing_text ⟨[⟨"Delhi".data, none⟩], fun _ => ⟨503, none⟩, fun _ => .error "boom".data⟩
    [(locKey, .str "Delhi".data), (probKey, .str "smog".data)]
    "Delhi".data "smog".data ⟨"Delhi".data, none⟩
    (by decide) (by decide) (by decide) (by decide) (by decide) (by decide)

/-- The six-empty-item upstream response list used against C6. -/
def sixItems : List OrgItem := List.replicate 6 ⟨none, none, none⟩

/-- A world whose search upstream answers 200 with six organic results. -/
def newsWorld6 : World := ⟨[], fun _ => ⟨200, some sixItems⟩, fun _ => .ok none⟩

/-- C6 is false on the code: `search_online` never truncates, so an
upstream success response carrying six organic results yields six news
items, exceeding the claimed bound of 5 (the code only asks the upstream
for 5 via `num`, it does not enforce it). -/
theorem c6_counterexample :
    search_online newsWorld6 "L".data "P".data =
      .ok (List.replicate 6 ⟨"No Title".data, "#".data, "No snippet available.".data⟩) ∧
    ¬(List.replicate 6
        (⟨"No Title".data, "#".data, "No snippet available.".data⟩ : NewsItem)).length ≤ 5 :=
  ⟨rfl, by decide⟩

/-- C6 (amended): on a successful upstream response, News Lookup returns
exactly one item per upstream organic result, in upstream order, each with
exactly the fields title/link/snippet and the placeholders "No Title",
"#", "No snippet available." for absent fields; the output length equals
the upstream organic count (so it is at most 5 exactly when the upstream
honors the requested `num = 5`). -/
theorem c6_amended (w : World) (location problem : List Char) (rs : List OrgItem)
    (hst : ∀ pl, (w.news pl).status = 200)
    (hog : ∀ pl, (w.news pl).organic = some rs) :
    ∃ out, search_online w location problem = .ok out ∧
      out.length = rs.length ∧
      (∀ i (h1 : i < out.length) (h2 : i < rs.length),
        out[i] = ⟨(rs[i].title).getD "No Title".data,
          (rs[i].link).getD "#".data,
          (rs[i].snippet).getD "No snippet available.".data⟩) ∧
      (rs.length ≤ 5 → out.length ≤ 5) := by
  refine ⟨rs.map (fun r => ⟨r.title.getD "No Title".data, r.link.getD "#".data,
    r.snippet.getD "No snippet available.".data⟩), ?_, ?_, ?_, ?_⟩
  · simp [search_online, hst, hog]
  · simp
  · intro i h1 h2
    simp
  · intro h
    simpa using h

/-- Witness for C6 (amended) at a concrete upstream response. -/
theorem c6_witness :
    ∃ out,
      search_online ⟨[], fun _ => ⟨200, some [⟨some "T".data, none, none⟩]⟩, fun _ => .ok none⟩
          "L".data "P".data = .ok out ∧
      out.length = [(⟨some "T".data, none, none⟩ : OrgItem)].length ∧
      (∀ i (h1 : i < out.length) (h2 : i < [(⟨some "T".data, none, none⟩ : OrgItem)].length),
        out[i] = ⟨([(⟨some "T".data, none, none⟩ : OrgItem)][i].title).getD "No Title".data,
          ([(⟨some "T".data, none, none⟩ : OrgItem)][i].link).getD "#".data,
          ([(⟨some "T".data, none, none⟩ : OrgItem)][i].snippet).getD "No snippet available.".data⟩) ∧
      ([(⟨some "T".data, none, none⟩ : OrgItem)].length ≤ 5 → out.length ≤ 5) :=
  c6_amended ⟨[], fun _ => ⟨200, some [⟨some "T".data, none, none⟩]⟩, fun _ => .ok none⟩
    "L".data "P".data [⟨some "T".data, none, none⟩] (fun _ => rfl) (fun _ => rfl)

/-- C7: on every upstream search response with a non-success status,
News Lookup returns the empty sequence and does not raise (soft-fail). -/
theorem c7_softfail (w : World) (location problem : List Char)
    (h : ∀ pl, (w.news pl).status ≠ 200) :
    search_online w location problem = .ok [] := by
  unfold search_online
  rw [if_neg (h _)]

/-- Witness for C7 against a world whose search upstream answers 503. -/
theorem c7_witness : search_online emptyWorld "Delhi".data "smog".data = .ok [] :=
  c7_softfail emptyWorld "Delhi".data "smog".data (fun pl => by simp [emptyWorld])

/-- C8: if the generative-model call fails, `generate_summary` catches the
exception and returns a readable error string embedding the failure
reason, and the request still completes with status 200 carrying that
degraded summary, not a 500. -/
theorem c8_degraded (w : World) (fields : List (List Char × Json))
    (rawLoc rawProb e : List Char) (cs : List Matched) (ns : List NewsItem)
    (hl : rawStrField fields locKey = some rawLoc)
    (hp : rawStrField fields probKey = some rawProb)
    (hne1 : stripChars rawLoc ≠ []) (hne2 : stripChars rawProb ≠ [])
    (hrank : search_firebase w.store (titleCase (stripChars rawLoc))
      (stripChars rawProb) 70 = .ok cs)
    (hnews : search_online w (titleCase (stripChars rawLoc)) (stripChars rawProb) = .ok ns)
    (hfail : ∀ prompt, w.gemini prompt = .error e) :
    (analyze w (.obj fields)).status = 200 ∧
    summaryOf (analyze w (.obj fields)).body =
      some ("Error generating summary: ".data ++ e) := by
  simp only [analyze, hl, hp]
  have hcond : ¬(titleCase (stripChars rawLoc) = [] ∨ stripChars rawProb = []) := by
    intro h
    rcases h with h | h
    · exact hne1 ((titleCase_eq_nil_iff _).mp h)
    · exact hne2 h
  rw [if_neg hcond, hrank, hnews]
  simp only [generate_summary, hfail]
  exact ⟨trivial, rfl⟩

/-- Witness for C8 against a world whose generative model always raises. -/
theorem c8_witness :
    (analyze emptyWorld (.obj [(locKey, .str "Delhi".data), (probKey, .str "smog".data)])).status
        = 200 ∧
    summaryOf (analyze emptyWorld
        (.obj [(locKey, .str "Delhi".data), (probKey, .str "smog".data)])).body =
      some ("Error generating summary: ".data ++ "boom".data) :=
  c8_degraded emptyWorld [(locKey, .str "Delhi".data), (probKey, .str "smog".data)]
    "Delhi".data "smog".data "boom".data [] []
    (by decide) (by decide) (by decide) (by decide) (by decide) (by decide) (fun prompt => rfl)

/-- C9 is false as universally stated: in the request body
`{"problem": 5}` the `location` field is missing, yet the handler answers
500 (the `.strip()` on the non-string `problem` raises before the 400
validation is reached), not the documented 400, so the claimed response
for every body with a missing field does not hold. -/
theorem c9_counterexample :
    (analyze emptyWorld (.obj [(probKey, .num 5)])).status = 500 ∧
    ¬(analyze emptyWorld (.obj [(probKey, .num 5)])).status = 400 :=
  ⟨rfl, by decide⟩

/-- C9 (amended): for every JSON-object request body whose `location` and
`problem` fields are each absent or strings, if either field is missing or
is empty after trimming whitespace, POST /analyze returns status 400 with
the body `{"error": "Both 'location' and 'problem' fields are required!"}`
and makes no external call. -/
theorem c9_amended (w : World) (fields : List (List Char × Json))
    (rawLoc rawProb : List Char)
    (hl : rawStrField fields locKey = some rawLoc)
    (hp : rawStrField fields probKey = some rawProb)
    (hblank : stripChars rawLoc = [] ∨ stripChars rawProb = []) :
    analyze w (.obj fields) = ⟨400, .err requiredMsg, []⟩ := by
  simp only [analyze, hl, hp]
  have hcond : titleCase (stripChars rawLoc) = [] ∨ stripChars rawProb = [] := by
    rcases hblank with h | h
    · left; rw [h]; rfl
    · right; exact h
  rw [if_pos hcond]

/-- Witness for C9 (amended): a whitespace-only location and an absent
problem field. -/
theorem c9_witness :
    analyze emptyWorld (.obj [(locKey, .str " ".data)]) = ⟨400, .err requiredMsg, []⟩ :=
  c9_amended emptyWorld [(locKey, .str " ".data)] " ".data []
    (by decide) (by decide) (by decide)

/-- C10: a request body that is not a JSON object, or whose `location` or
`problem` field is present but not a string, makes POST /analyze answer
500 with the exception's string representation (no external call made),
and the 400 validation path is reached only when both fields are absent or
strings. -/
theorem c10_typed :
    (∀ (w : World) (body : Json), (∀ fields, body ≠ .obj fields) →
      analyze w body = ⟨500, .err attrGetMsg, []⟩) ∧
    (∀ (w : World) (fields : List (List Char × Json)),
      rawStrField fields locKey = none →
      analyze w (.obj fields) = ⟨500, .err attrStripMsg, []⟩) ∧
    (∀ (w : World) (fields : List (List Char × Json)) (rawLoc : List Char),
      rawStrField fields locKey = some rawLoc →
      rawStrField fields probKey = none →
      analyze w (.obj fields) = ⟨500, .err attrStripMsg, []⟩) ∧
    (∀ (w : World) (body : Json), (analyze w body).status = 400 →
      ∃ (fields : List (List Char × Json)) (rawLoc rawProb : List Char),
        body = .obj fields ∧ rawStrField fields locKey = some rawLoc ∧
        rawStrField fields probKey = some rawProb) := by
  refine ⟨?_, ?_, ?_, ?_⟩
  · intro w body h
    cases body with
    | obj fields => exact absurd rfl (h fields)
    | str s => rfl
    | num n => rfl
    | null => rfl
    | arr elems => rfl
  · intro w fields h
    simp only [analyze, h]
  · intro w fields rawLoc h1 h2
    simp only [analyze, h1, h2]
  · intro w body h400
    cases body with
    | obj fields =>
      cases hl : rawStrField fields locKey with
      | none =>
        simp only [analyze, hl] at h400
        exact absurd h400 (by decide)
      | some rawLoc =>
        cases hp : rawStrField fields probKey with
        | none =>
          simp only [analyze, hl, hp] at h400
          exact absurd h400 (by decide)
        | some rawProb => exact ⟨fields, rawLoc, rawProb, rfl, hl, hp⟩
    | str s =>
      simp only [analyze] at h400
      exact absurd h400 (by decide)
    | num n =>
      simp only [analyze] at h400
      exact absurd h400 (by decide)
    | null =>
      simp only [analyze] at h400
      exact absurd h400 (by decide)
    | arr elems =>
      simp only [analyze] at h400
      exact absurd h400 (by decide)

/-- Witness for C10 at concrete ill-typed request bodies. -/
theorem c10_witness :
    analyze emptyWorld (.num 7) = ⟨500, .err attrGetMsg, []⟩ ∧
    analyze emptyWorld (.obj [(locKey, Json.null)]) = ⟨500, .err attrStripMsg, []⟩ ∧
    analyze emptyWorld (.obj [(locKey, .str "Delhi".data), (probKey, .num 3)]) =
      ⟨500, .err attrStripMsg, []⟩ ∧
    (∃ (fields : List (List Char × Json)) (rawLoc rawProb : List Char),
      Json.obj [(locKey, Json.str [])] = .obj fields ∧
      rawStrField fields locKey = some rawLoc ∧
      rawStrField fields probKey = some rawProb) :=
  ⟨c10_typed.1 emptyWorld (.num 7) (fun fields h => Json.noConfusion h),
   c10_typed.2.1 emptyWorld [(locKey, Json.null)] rfl,
   c10_typed.2.2.1 emptyWorld [(locKey, .str "Delhi".data), (probKey, .num 3)]
     "Delhi".data rfl rfl,
   c10_typed.2.2.2 emptyWorld (.obj [(locKey, Json.str [])]) rfl⟩
